import Mathlib

/-!
Verification of the Undercover party-game room/game state machine.

The definitions below are a shallow embedding of the game manager
(room registry, role assignment, elimination processing, win-condition
evaluation, scoring, snapshot-based undo, public-view redaction).
JavaScript in-place mutation is rendered as explicit state passing:
every operation takes a `Room` and returns a result carrying the room
as it stands when the operation returns.  `Math.random` consumption is
rendered as injected streams of naturals (one value per random draw),
and the external word-pair source is an injected `WordPair`.
-/

namespace Undercover

/-- The three standard factions a player can hold (`ROLE` constants). -/
inductive Role
  | civilian
  | undercover
  | mrWhite
deriving DecidableEq, Repr

/-- Optional special roles (`SPECIAL_ROLE` constants). -/
inductive SpecialRole
  | joyFool
  | lover
  | revenger
  | duelist
  | mrMeme
deriving DecidableEq, Repr

/-- Room lifecycle status (`STATUS` constants). -/
inductive Status
  | waiting
  | roleReveal
  | playing
  | mrWhiteGuess
  | revengerRevenge
  | finished
deriving DecidableEq, Repr

/-- Entries of a `winners` array: the winning faction tags. -/
inductive Faction
  | civilians
  | undercover
  | mrWhite
deriving DecidableEq, Repr

/-- A civilian/undercover word pair as drawn from the word source. -/
structure WordPair where
  civ : String
  und : String
deriving DecidableEq, Repr

/-- One player record of a room. -/
structure Player where
  id : Nat
  socketId : Option String
  name : String
  role : Option Role
  word : Option String
  isAlive : Bool
  isHost : Bool
  hasRevealed : Bool
  score : Int
  gamesPlayed : Nat
  gamesWon : Nat
  specialRole : Option SpecialRole
  specialRolePartner : Option String
deriving DecidableEq, Repr

/-- Per-special-role assignment probability (0-100), one field per role. -/
structure RoleChances where
  joyFool : Int
  lover : Int
  revenger : Int
  duelist : Int
  mrMeme : Int
deriving DecidableEq, Repr

def RoleChances.get (c : RoleChances) : SpecialRole → Int
  | .joyFool => c.joyFool
  | .lover => c.lover
  | .revenger => c.revenger
  | .duelist => c.duelist
  | .mrMeme => c.mrMeme

def RoleChances.set (c : RoleChances) : SpecialRole → Int → RoleChances
  | .joyFool, v => { c with joyFool := v }
  | .lover, v => { c with lover := v }
  | .revenger, v => { c with revenger := v }
  | .duelist, v => { c with duelist := v }
  | .mrMeme, v => { c with mrMeme := v }

/-- Room settings, mutable only while the room is `WAITING`. -/
structure Settings where
  undercoverCount : Int
  includeMrWhite : Bool
  hideRoleLabels : Bool
  preventMrWhiteFirst : Bool
  selectedCategories : List String
  enabledSpecialRoles : List SpecialRole
  specialRoleChances : RoleChances
deriving DecidableEq, Repr

/-- Duelist bookkeeping inside `room.specialRoles`. -/
structure DuelistsState where
  playerIds : List Nat
  firstEliminatedId : Option Nat
deriving DecidableEq, Repr

/-- The `room.specialRoles` side table. -/
structure SpecialRolesState where
  joyFoolPlayerId : Option Nat
  loversPlayerIds : List Nat
  duelists : DuelistsState
  revengerPlayerId : Option Nat
  mrMemeCurrentMimeId : Option Nat
deriving DecidableEq, Repr

def initialSpecialRolesState : SpecialRolesState :=
  ⟨none, [], ⟨[], none⟩, none, none⟩

/-- One per-player row of an end-of-game score breakdown. -/
structure ScoreEntry where
  id : Nat
  name : String
  role : Option Role
  specialRole : Option SpecialRole
  pointsThisGame : Int
  breakdown : List String
  totalScore : Int
  gamesPlayed : Nat
  gamesWon : Nat
deriving DecidableEq, Repr

/-- One archived finished game in `room.gameHistory`. -/
structure HistoryEntry where
  round : Nat
  winners : List Faction
  wordPair : Option WordPair
  scores : List ScoreEntry
deriving DecidableEq, Repr

/-- A deep copy of the mutable game fields, pushed on `room.undoStack`
before each state-mutating action (`snapshotRoom`). -/
structure Snapshot where
  status : Status
  players : List Player
  speakingOrder : List (Nat × String)
  round : Nat
  mrWhiteGuesserId : Option Nat
  wordPair : Option WordPair
  specialRoles : SpecialRolesState
  firstEliminatedId : Option Nat
  revengerTargetId : Option Nat
deriving DecidableEq, Repr

/-- One active game session. -/
structure Room where
  code : String
  hostSocketId : String
  status : Status
  wordPair : Option WordPair
  players : List Player
  settings : Settings
  speakingOrder : List (Nat × String)
  round : Nat
  mrWhiteGuesserId : Option Nat
  gameHistory : List HistoryEntry
  undoStack : List Snapshot
  specialRoles : SpecialRolesState
  firstEliminatedId : Option Nat
  revengerTargetId : Option Nat
deriving DecidableEq, Repr

/-! ### List and string helpers

JavaScript mutates the single array element found by `find`; we model
that as updating the first element satisfying the predicate.  String
helpers mirror `toLowerCase` and `trim` by computing on the character
list, so that concrete runs reduce inside the kernel. -/

def updateFirst (p : α → Bool) (f : α → α) : List α → List α
  | [] => []
  | a :: t => if p a then f a :: t else a :: updateFirst p f t

/-- Swap the elements at positions `i` and `j` (no-op when out of range),
as JavaScript destructuring swap does inside the Fisher-Yates loop. -/
def swapNth (l : List α) (i j : Nat) : List α :=
  match l.get? i, l.get? j with
  | some a, some b => (l.set i b).set j a
  | _, _ => l

/-- The Fisher-Yates loop of `shuffleArray`: index `i` runs downward,
each step swapping position `i` with `roll % (i+1)` for the next
injected roll (`Math.floor(Math.random() * (i + 1))`). -/
def shuffleGo (l : List α) : Nat → List Nat → List α
  | 0, _ => l
  | i + 1, rolls => shuffleGo (swapNth l (i + 1) (rolls.headD 0 % (i + 2))) i rolls.tail

def shuffleArray (l : List α) (rolls : List Nat) : List α :=
  shuffleGo l (l.length - 1) rolls

/-- Stable insertion used to model `Array.prototype.sort` (stable per the
JS spec); `le a b` holds when the comparator keeps `a` before `b`. -/
def insertSorted (le : α → α → Bool) (a : α) : List α → List α
  | [] => [a]
  | b :: t => if le a b then a :: b :: t else b :: insertSorted le a t

def sortStable (le : α → α → Bool) (l : List α) : List α :=
  l.foldr (insertSorted le) []

/-- `String.prototype.toLowerCase`. -/
def toLowerStr (s : String) : String :=
  String.mk (s.data.map Char.toLower)

/-- `String.prototype.trim`. -/
def trimStr (s : String) : String :=
  String.mk (((s.data.dropWhile Char.isWhitespace).reverse.dropWhile Char.isWhitespace).reverse)

/-! ### Win-condition evaluation -/

/-- Result object of `checkWinCondition` when a winner exists. -/
structure WinResult where
  winners : List Faction
  reason : String
deriving DecidableEq, Repr

/-- `GameManager.checkWinCondition`: pure function of the alive players'
role counts. -/
def checkWinCondition (room : Room) : Option WinResult :=
  let alivePlayers := room.players.filter (fun p => p.isAlive)
  let aliveCivilians := alivePlayers.filter (fun p => p.role == some Role.civilian)
  let aliveUndercover := alivePlayers.filter (fun p => p.role == some Role.undercover)
  let aliveMrWhite := alivePlayers.filter (fun p => p.role == some Role.mrWhite)
  if aliveUndercover.length + aliveMrWhite.length ≥ aliveCivilians.length then
    some ⟨(if aliveUndercover.length > 0 then [Faction.undercover] else []) ++
          (if aliveMrWhite.length > 0 then [Faction.mrWhite] else []),
          "The bad guys outnumber the civilians!"⟩
  else if aliveUndercover.length = 0 ∧ aliveMrWhite.length = 0 then
    some ⟨[Faction.civilians], "All undercover agents and Mr. White have been eliminated!"⟩
  else
    none

/-- Number of alive players holding role `r`. -/
def aliveRoleCount (room : Room) (r : Role) : Nat :=
  (room.players.filter (fun p => p.isAlive && p.role == some r)).length

def aliveCiviliansCount (room : Room) : Nat := aliveRoleCount room Role.civilian

def aliveUndercoverCount (room : Room) : Nat := aliveRoleCount room Role.undercover

def aliveMrWhiteCount (room : Room) : Nat := aliveRoleCount room Role.mrWhite

theorem filter_filter_alive (room : Room) (r : Role) :
    (room.players.filter (fun p => p.isAlive)).filter (fun p => p.role == some r)
      = room.players.filter (fun p => p.isAlive && p.role == some r) := by
  rw [List.filter_filter]
  exact List.filter_congr (fun a _ => Bool.and_comm _ _)

/-- C1: `checkWinCondition` is determined by the alive role counts: the
bad guys win (winners being whichever of Undercover and Mr. White has an
alive member) exactly when alive Undercover + alive Mr. White is at
least alive Civilians; otherwise Civilians win exactly when no
Undercover and no Mr. White is alive; otherwise there is no winner. -/
theorem checkWinCondition_spec (room : Room) :
    checkWinCondition room =
      if aliveUndercoverCount room + aliveMrWhiteCount room ≥ aliveCiviliansCount room then
        some ⟨(if aliveUndercoverCount room > 0 then [Faction.undercover] else []) ++
              (if aliveMrWhiteCount room > 0 then [Faction.mrWhite] else []),
              "The bad guys outnumber the civilians!"⟩
      else if aliveUndercoverCount room = 0 ∧ aliveMrWhiteCount room = 0 then
        some ⟨[Faction.civilians], "All undercover agents and Mr. White have been eliminated!"⟩
      else
        none := by
  simp only [checkWinCondition, aliveCiviliansCount, aliveUndercoverCount, aliveMrWhiteCount,
    aliveRoleCount, filter_filter_alive]

/-! ### Snapshot-based undo -/

/-- `GameManager.snapshotRoom`: deep copy of the mutable game fields. -/
def snapshotRoom (room : Room) : Snapshot :=
  ⟨room.status, room.players, room.speakingOrder, room.round, room.mrWhiteGuesserId,
   room.wordPair, room.specialRoles, room.firstEliminatedId, room.revengerTargetId⟩

/-- `GameManager.restoreRoom`: replace the snapshot fields wholesale. -/
def restoreRoom (room : Room) (s : Snapshot) : Room :=
  { room with
    status := s.status
    players := s.players
    speakingOrder := s.speakingOrder
    round := s.round
    mrWhiteGuesserId := s.mrWhiteGuesserId
    wordPair := s.wordPair
    specialRoles := s.specialRoles
    firstEliminatedId := s.firstEliminatedId
    revengerTargetId := s.revengerTargetId }

/-- Push a snapshot of the room on its own undo stack
(`room.undoStack.push(this.snapshotRoom(room))`). -/
def pushSnapshot (room : Room) : Room :=
  { room with undoStack := snapshotRoom room :: room.undoStack }

inductive UndoResult
  | failure (error : String) (room : Room)
  | ok (room : Room)
deriving DecidableEq, Repr

def UndoResult.room : UndoResult → Room
  | .failure _ r => r
  | .ok r => r

def UndoResult.isOk : UndoResult → Bool
  | .failure _ _ => false
  | .ok _ => true

/-- `GameManager.undoLastAction`: pop the most recent snapshot and
restore it; fails with no state change on an empty stack. -/
def undoLastAction (room : Room) : UndoResult :=
  match room.undoStack with
  | [] => .failure "Nothing to undo" room
  | s :: rest => .ok (restoreRoom { room with undoStack := rest } s)

/-! ### Room creation and lobby operations -/

/-- Generic success/failure result carrying the room as returned. -/
inductive OpResult
  | failure (error : String) (room : Room)
  | ok (room : Room)
deriving DecidableEq, Repr

def OpResult.room : OpResult → Room
  | .failure _ r => r
  | .ok r => r

def OpResult.isOk : OpResult → Bool
  | .failure _ _ => false
  | .ok _ => true

def defaultChances : RoleChances := ⟨100, 100, 100, 100, 100⟩

def newPlayer (id : Nat) (socketId : Option String) (name : String) (isHost : Bool) : Player :=
  ⟨id, socketId, name, none, none, true, isHost, false, 0, 0, 0, none, none⟩

/-- `GameManager.createRoom`; the generated room code, the generated
host player id and the category list from the word store are injected. -/
def createRoom (roomCode : String) (hostSocketId : String) (hostName : String)
    (hostId : Nat) (allCategories : List String) : Room :=
  { code := roomCode
    hostSocketId := hostSocketId
    status := Status.waiting
    wordPair := none
    players := [newPlayer hostId (some hostSocketId) hostName true]
    settings := ⟨1, false, false, false, allCategories, [], defaultChances⟩
    speakingOrder := []
    round := 0
    mrWhiteGuesserId := none
    gameHistory := []
    undoStack := []
    specialRoles := initialSpecialRolesState
    firstEliminatedId := none
    revengerTargetId := none }

/-- Optional fields of an `UPDATE_SETTINGS` request body. -/
structure SettingsUpdate where
  undercoverCount : Option Int
  includeMrWhite : Option Bool
  hideRoleLabels : Option Bool
  preventMrWhiteFirst : Option Bool
  selectedCategories : Option (List String)
  enabledSpecialRoles : Option (List SpecialRole)
  specialRoleChances : Option (List (SpecialRole × Int))
deriving Repr

/-- Clamp a requested chance into 0-100
(`Math.max(0, Math.min(100, parseInt(chance) || 0))`). -/
def clampChance (c : Int) : Int := max 0 (min 100 c)

def applyChances (rc : RoleChances) : List (SpecialRole × Int) → RoleChances
  | [] => rc
  | (role, chance) :: rest => applyChances (rc.set role (clampChance chance)) rest

/-- `GameManager.updateSettings`; the valid category names from the word
store are injected. -/
def updateSettings (room : Room) (hostSocketId : String) (settings : SettingsUpdate)
    (validCategories : List String) : OpResult :=
  match room.players.find? (fun p => p.isHost) with
  | none => .failure "Only host can change settings" room
  | some host =>
    if host.socketId ≠ some hostSocketId then .failure "Only host can change settings" room
    else if room.status ≠ Status.waiting then .failure "Cannot change settings during game" room
    else
      let s := room.settings
      let s := match settings.undercoverCount with
        | some c => if 1 ≤ c ∧ c ≤ 4 then { s with undercoverCount := c } else s
        | none => s
      let s := match settings.includeMrWhite with
        | some b => { s with includeMrWhite := b }
        | none => s
      let s := match settings.hideRoleLabels with
        | some b => { s with hideRoleLabels := b }
        | none => s
      let s := match settings.preventMrWhiteFirst with
        | some b => { s with preventMrWhiteFirst := b }
        | none => s
      let s := match settings.selectedCategories with
        | some cats => { s with selectedCategories := cats.filter (fun c => validCategories.contains c) }
        | none => s
      let s := match settings.enabledSpecialRoles with
        | some roles => { s with enabledSpecialRoles := roles }
        | none => s
      let s := match settings.specialRoleChances with
        | some entries => { s with specialRoleChances := applyChances s.specialRoleChances entries }
        | none => s
      .ok { room with settings := s }

/-- `GameManager.addLocalPlayer`; the generated player id is injected. -/
def addLocalPlayer (room : Room) (hostSocketId : String) (playerName : String)
    (newId : Nat) : OpResult :=
  match room.players.find? (fun p => p.isHost) with
  | none => .failure "Only host can add players" room
  | some host =>
    if host.socketId ≠ some hostSocketId then .failure "Only host can add players" room
    else if room.status ≠ Status.waiting then .failure "Game already in progress" room
    else if room.players.any (fun p => toLowerStr p.name == toLowerStr playerName) then
      .failure "Name already taken" room
    else if room.players.length ≥ 12 then .failure "Room is full (max 12 players)" room
    else .ok { room with players := room.players ++ [newPlayer newId none playerName false] }

/-- `GameManager.removeLocalPlayer`. -/
def removeLocalPlayer (room : Room) (hostSocketId : String) (playerId : Nat) : OpResult :=
  match room.players.find? (fun p => p.isHost) with
  | none => .failure "Only host can remove players" room
  | some host =>
    if host.socketId ≠ some hostSocketId then .failure "Only host can remove players" room
    else if room.status ≠ Status.waiting then .failure "Cannot remove players during game" room
    else
      match room.players.find? (fun p => p.id == playerId) with
      | none => .failure "Player not found" room
      | some player =>
        if player.isHost then .failure "Cannot remove the host" room
        else .ok { room with players := room.players.filter (fun p => !(p.id == playerId)) }

/-! ### Role assignment -/

/-- The standard-role multiset built by `assignRoles` before shuffling:
`undercoverCount` Undercovers, one Mr. White when enabled, then
Civilians filling up to the player count. -/
def buildRoles (playerCount : Nat) (undercoverCount : Int) (mrWhiteCount : Nat) : List Role :=
  let roles := List.replicate undercoverCount.toNat Role.undercover ++
               List.replicate mrWhiteCount Role.mrWhite
  roles ++ List.replicate (playerCount - roles.length) Role.civilian

/-- `GameManager.assignRoles`: shuffle the role multiset and assign one
role per player by position. -/
def assignRoles (room : Room) (rolls : List Nat) : Room :=
  let playerCount := room.players.length
  let mrWhiteCount := if room.settings.includeMrWhite then 1 else 0
  let roles := shuffleArray (buildRoles playerCount room.settings.undercoverCount mrWhiteCount) rolls
  { room with players := room.players.zipWith (fun p r => { p with role := some r }) roles }

/-- `GameManager.shouldAssignRole`: probability roll for one special
role; consumes an injected roll only for chances strictly between 0 and
100. -/
def shouldAssignRole (room : Room) (roleType : SpecialRole) (roll : Nat) : Bool :=
  let chance := room.settings.specialRoleChances.get roleType
  if chance ≥ 100 then true
  else if chance ≤ 0 then false
  else (roll % 100 : Int) < chance

/-- `GameManager.selectMrMemePlayer`: draw this round's mime among alive
non-Mr.-White players, or nobody. -/
def selectMrMemePlayer (room : Room) (chanceRoll idxRoll : Nat) : Room :=
  let clearMime := { room with specialRoles := { room.specialRoles with mrMemeCurrentMimeId := none } }
  if !(room.settings.enabledSpecialRoles.contains SpecialRole.mrMeme) then clearMime
  else if !(shouldAssignRole room SpecialRole.mrMeme chanceRoll) then clearMime
  else
    let eligiblePlayers := room.players.filter (fun p => p.isAlive && p.role != some Role.mrWhite)
    if eligiblePlayers.length = 0 then clearMime
    else
      { room with specialRoles := { room.specialRoles with
          mrMemeCurrentMimeId := (eligiblePlayers.get? (idxRoll % eligiblePlayers.length)).map (·.id) } }

/-- The reset applied to every player at the top of
`assignSpecialRoles`. -/
def resetSpecialPlayer (p : Player) : Player :=
  { p with specialRole := none, specialRolePartner := none }

/-- The per-player write-back of `assignSpecialRoles` once the
candidates have been chosen. -/
def applySpecialAssignment (jfCand revCand : Option Player)
    (loverPair duelPair : Option (Player × Player)) (p : Player) : Player :=
  let p := match jfCand with
    | some c => if p.id == c.id then { p with specialRole := some SpecialRole.joyFool } else p
    | none => p
  let p := match revCand with
    | some c => if p.id == c.id then { p with specialRole := some SpecialRole.revenger } else p
    | none => p
  let p := match loverPair with
    | some (l1, l2) =>
      if p.id == l1.id then
        { p with specialRole := some SpecialRole.lover, specialRolePartner := some l2.name }
      else if p.id == l2.id then
        { p with specialRole := some SpecialRole.lover, specialRolePartner := some l1.name }
      else p
    | none => p
  let p := match duelPair with
    | some (d1, d2) =>
      if p.id == d1.id then
        { p with specialRole := some SpecialRole.duelist, specialRolePartner := some d2.name }
      else if p.id == d2.id then
        { p with specialRole := some SpecialRole.duelist, specialRolePartner := some d1.name }
      else p
    | none => p
  p

/-- `GameManager.assignSpecialRoles`: reset all special-role state, then
sequentially assign Joy Fool, Revenger, the Lover pair and the Duelist
pair from a shuffled candidate list, honoring minimum player counts and
eligibility restrictions. -/
def assignSpecialRoles (room : Room) (shuffleRolls : List Nat)
    (jfRoll revRoll loverRoll duelRoll : Nat) : Room :=
  let playerCount := room.players.length
  let enabledRoles := room.settings.enabledSpecialRoles
  let room := { room with
    players := room.players.map resetSpecialPlayer
    specialRoles := initialSpecialRolesState
    firstEliminatedId := none
    revengerTargetId := none }
  let availablePlayers := shuffleArray room.players shuffleRolls
  let jfCand :=
    if enabledRoles.contains SpecialRole.joyFool && decide (playerCount ≥ 3) &&
        shouldAssignRole room SpecialRole.joyFool jfRoll then
      availablePlayers.head?
    else none
  let assigned1 := match jfCand with
    | some p => [p.id]
    | none => []
  let revCand :=
    if enabledRoles.contains SpecialRole.revenger && decide (playerCount ≥ 5) &&
        shouldAssignRole room SpecialRole.revenger revRoll then
      availablePlayers.find? (fun p => !(assigned1.contains p.id) && p.role != some Role.mrWhite)
    else none
  let assigned2 := match revCand with
    | some p => assigned1 ++ [p.id]
    | none => assigned1
  let loverPair :=
    if enabledRoles.contains SpecialRole.lover && decide (playerCount ≥ 5) &&
        shouldAssignRole room SpecialRole.lover loverRoll then
      let candidates := availablePlayers.filter (fun p => !(assigned2.contains p.id))
      let civilians := candidates.filter (fun p => p.role == some Role.civilian)
      if decide (civilians.length ≥ 1) && decide (candidates.length ≥ 2) then
        match civilians.head? with
        | some lover1 =>
          match candidates.find? (fun p => p.id != lover1.id) with
          | some lover2 => some (lover1, lover2)
          | none => none
        | none => none
      else none
    else none
  let assigned3 := match loverPair with
    | some (l1, l2) => assigned2 ++ [l1.id, l2.id]
    | none => assigned2
  let duelPair :=
    if enabledRoles.contains SpecialRole.duelist && decide (playerCount ≥ 5) &&
        shouldAssignRole room SpecialRole.duelist duelRoll then
      match availablePlayers.filter (fun p => !(assigned3.contains p.id)) with
      | d1 :: d2 :: _ => some (d1, d2)
      | _ => none
    else none
  let players := room.players.map (applySpecialAssignment jfCand revCand loverPair duelPair)
  { room with
    players := players
    specialRoles :=
      { joyFoolPlayerId := jfCand.map (·.id)
        loversPlayerIds := match loverPair with
          | some (l1, l2) => [l1.id, l2.id]
          | none => []
        duelists := ⟨(match duelPair with
          | some (d1, d2) => [d1.id, d2.id]
          | none => []), none⟩
        revengerPlayerId := revCand.map (·.id)
        mrMemeCurrentMimeId := none } }

/-- `GameManager.updateSpeakingOrder`: alive players in current array
order. -/
def updateSpeakingOrder (room : Room) : Room :=
  { room with speakingOrder := (room.players.filter (fun p => p.isAlive)).map (fun p => (p.id, p.name)) }

/-! ### Starting a game -/

/-- The injected randomness a `startGame` call consumes. -/
structure StartRand where
  roleRolls : List Nat
  specialShuffleRolls : List Nat
  jfRoll : Nat
  revRoll : Nat
  loverRoll : Nat
  duelRoll : Nat
  playerShuffleRolls : List Nat
  retryRolls : List (List Nat)
  memeChanceRoll : Nat
  memeIdxRoll : Nat
deriving Repr

inductive StartResult
  | failure (error : String) (room : Room)
  | ok (room : Room)
deriving DecidableEq, Repr

def StartResult.room : StartResult → Room
  | .failure _ r => r
  | .ok r => r

def StartResult.isOk : StartResult → Bool
  | .failure _ _ => false
  | .ok _ => true

/-- The bounded reshuffle loop run when `preventMrWhiteFirst` is set:
keep shuffling (at most 10 retries) while the first player is Mr. White. -/
def reshuffleNotMrWhiteFirst (players : List Player) (retryRolls : List (List Nat)) :
    Nat → List Player
  | 0 => players
  | fuel + 1 =>
    if (players.head?.map (fun p => p.role == some Role.mrWhite)).getD false then
      reshuffleNotMrWhiteFirst (shuffleArray players (retryRolls.headD [])) retryRolls.tail fuel
    else players

/-- The word handed to one player by `startGame` based on their role. -/
def assignWordToPlayer (drawnPair : WordPair) (p : Player) : Player :=
  let word := match p.role with
    | some Role.civilian => some drawnPair.civ
    | some Role.undercover => some drawnPair.und
    | some Role.mrWhite => none
    | none => p.word
  { p with word := word, hasRevealed := false }

/-- The mutation pipeline of a validated `startGame` call: assign
standard and special roles, store the drawn pair, distribute words,
shuffle the player order (reshuffling when Mr. White must not go
first), enter `ROLE_REVEAL` at round 1, recompute the speaking order
and draw the round's Mr. Meme if enabled. -/
def startGamePipeline (room : Room) (rand : StartRand) (drawnPair : WordPair) : Room :=
  let room := assignRoles room rand.roleRolls
  let room := assignSpecialRoles room rand.specialShuffleRolls rand.jfRoll rand.revRoll
    rand.loverRoll rand.duelRoll
  let room := { room with wordPair := some drawnPair }
  let room := { room with players := room.players.map (assignWordToPlayer drawnPair) }
  let room := { room with players := shuffleArray room.players rand.playerShuffleRolls }
  let room :=
    if room.settings.preventMrWhiteFirst && room.settings.includeMrWhite &&
        decide (room.players.length > 1) then
      { room with players := reshuffleNotMrWhiteFirst room.players rand.retryRolls 10 }
    else room
  let room := { room with status := Status.roleReveal, round := 1 }
  let room := updateSpeakingOrder room
  let room :=
    if room.settings.enabledSpecialRoles.contains SpecialRole.mrMeme then
      selectMrMemePlayer room rand.memeChanceRoll rand.memeIdxRoll
    else room
  room

/-- `GameManager.startGame`: validate, then run the start pipeline
(the word pair comes injected from the external word source). -/
def startGame (room : Room) (socketId : String) (rand : StartRand)
    (drawnPair : WordPair) : StartResult :=
  match room.players.find? (fun p => p.isHost) with
  | none => .failure "Only host can start the game" room
  | some host =>
    if host.socketId ≠ some socketId then .failure "Only host can start the game" room
    else if room.players.length < 3 then .failure "Need at least 3 players to start" room
    else
      let playerCount := room.players.length
      let mrWhiteCount : Int := if room.settings.includeMrWhite then 1 else 0
      let totalBadGuys := room.settings.undercoverCount + mrWhiteCount
      if totalBadGuys ≥ (playerCount : Int) - 1 then
        .failure ("Too many special roles for " ++ toString playerCount ++ " players.") room
      else if room.settings.selectedCategories.length = 0 then
        .failure "Select at least one word category" room
      else
        .ok (startGamePipeline room rand drawnPair)

/-- `GameManager.revealRole`. -/
def revealRole (room : Room) (playerId : Nat) : OpResult :=
  if room.status ≠ Status.roleReveal then .failure "Cannot reveal role now" room
  else
    match room.players.find? (fun p => p.id == playerId) with
    | none => .failure "Player not found" room
    | some _ =>
      let room := { room with
        players := updateFirst (fun p => p.id == playerId)
          (fun p => { p with hasRevealed := true }) room.players }
      if room.players.all (fun p => p.hasRevealed) then .ok { room with status := Status.playing }
      else .ok room

/-! ### Scoring -/

/-- The per-player step of `awardPoints`: updated player plus the score
breakdown row. -/
def playerPoints (room : Room) (winners : List Faction) (mrWhiteCorrectGuess : Bool)
    (player : Player) : Player × ScoreEntry :=
  let gamesPlayed := player.gamesPlayed + 1
  let isWinner :=
    (winners.contains Faction.civilians && player.role == some Role.civilian) ||
    (winners.contains Faction.undercover && player.role == some Role.undercover) ||
    (winners.contains Faction.mrWhite && player.role == some Role.mrWhite)
  let winPart : Int × List String × Nat :=
    if isWinner then
      let pts : Int := 10
      let bd := ["+10 Win"]
      let (pts, bd) := if player.isAlive then (pts + 5, bd ++ ["+5 Survived"]) else (pts, bd)
      let (pts, bd) :=
        if mrWhiteCorrectGuess && player.role == some Role.mrWhite then
          (pts + 5, bd ++ ["+5 Correct Guess"])
        else (pts, bd)
      (pts, bd, player.gamesWon + 1)
    else
      if player.isAlive &&
          (player.role == some Role.undercover || player.role == some Role.mrWhite) then
        (2, ["+2 Survived"], player.gamesWon)
      else (0, [], player.gamesWon)
  let pts := winPart.1
  let bd := winPart.2.1
  let gamesWon := winPart.2.2
  let (pts, bd) :=
    if player.specialRole == some SpecialRole.joyFool &&
        room.firstEliminatedId == some player.id then
      (pts + 4, bd ++ ["+4 Joy Fool (1st out)"])
    else (pts, bd)
  let (pts, bd) :=
    if player.specialRole == some SpecialRole.duelist then
      if room.specialRoles.duelists.firstEliminatedId == some player.id then
        (pts - 2, bd ++ ["-2 Duel Lost"])
      else if room.specialRoles.duelists.firstEliminatedId != none then
        (pts + 2, bd ++ ["+2 Duel Won"])
      else (pts, bd)
    else (pts, bd)
  let score := player.score + pts
  ({ player with gamesPlayed := gamesPlayed, gamesWon := gamesWon, score := score },
   ⟨player.id, player.name, player.role, player.specialRole, pts, bd, score,
    gamesPlayed, gamesWon⟩)

/-- `GameManager.awardPoints`: update every player's cumulative
counters, archive the sorted per-game breakdown into `gameHistory`, and
return it. -/
def awardPoints (room : Room) (winners : List Faction) (mrWhiteCorrectGuess : Bool) :
    Room × List ScoreEntry :=
  let results := room.players.map (playerPoints room winners mrWhiteCorrectGuess)
  let players := results.map Prod.fst
  let pointsAwarded := sortStable (fun a b => b.pointsThisGame ≤ a.pointsThisGame)
    (results.map Prod.snd)
  let entry : HistoryEntry :=
    ⟨room.gameHistory.length + 1, winners, room.wordPair, pointsAwarded⟩
  ({ room with players := players, gameHistory := room.gameHistory ++ [entry] }, pointsAwarded)

/-- Rows of `getLeaderboard`. -/
structure LeaderEntry where
  id : Nat
  name : String
  score : Int
  gamesPlayed : Nat
  gamesWon : Nat
deriving DecidableEq, Repr

/-- `GameManager.getLeaderboard`: players sorted by cumulative score
descending. -/
def getLeaderboard (room : Room) : List LeaderEntry :=
  sortStable (fun a b => b.score ≤ a.score)
    (room.players.map (fun p => ⟨p.id, p.name, p.score, p.gamesPlayed, p.gamesWon⟩))

/-! ### Elimination processing -/

/-- One entry of the `eliminated` descriptor list returned by the
elimination operations. -/
structure ElimInfo where
  name : String
  id : Nat
  role : Option Role
  specialRole : Option SpecialRole
  loversLinked : Bool
  revengerVictim : Bool
deriving DecidableEq, Repr

inductive ElimResult
  | failure (error : String) (room : Room)
  | mrWhiteChance (room : Room) (eliminated : List ElimInfo)
  | revengerChance (room : Room) (eliminated : List ElimInfo) (revengerId : Nat)
      (revengerName : String)
  | gameOver (room : Room) (eliminated : List ElimInfo) (winners : List Faction)
      (winReason : String)
  | continueGame (room : Room) (eliminated : List ElimInfo)
deriving DecidableEq, Repr

def ElimResult.room : ElimResult → Room
  | .failure _ r => r
  | .mrWhiteChance r _ => r
  | .revengerChance r _ _ _ => r
  | .gameOver r _ _ _ => r
  | .continueGame r _ => r

def ElimResult.isSuccess : ElimResult → Bool
  | .failure _ _ => false
  | _ => true

def ElimResult.winners : ElimResult → List Faction
  | .gameOver _ _ w _ => w
  | _ => []

/-- Mark dead the first player matched by `pred`
(`player.isAlive = false` on the object found by `find`). -/
def killFirst (pred : Player → Bool) (players : List Player) : List Player :=
  updateFirst pred (fun p => { p with isAlive := false }) players

/-- Record the duelists' first elimination if not already recorded. -/
def trackDuelistElimination (room : Room) (player : Player) : Room :=
  if player.specialRole == some SpecialRole.duelist &&
      room.specialRoles.duelists.firstEliminatedId == none then
    { room with specialRoles := { room.specialRoles with
        duelists := { room.specialRoles.duelists with firstEliminatedId := some player.id } } }
  else room

/-- The Lover chain shared by `eliminatePlayer` and `revengerPickVictim`:
when the eliminated player is a Lover, their still-alive partner dies in
the same operation.  Returns the updated room, the extra `eliminated`
entries and, for `eliminatePlayer`, the partner for duelist tracking. -/
def loversChain (room : Room) (player : Player) : Room × List ElimInfo × Option Player :=
  if player.specialRole == some SpecialRole.lover then
    match room.players.find? (fun p =>
        p.id != player.id && p.specialRole == some SpecialRole.lover && p.isAlive) with
    | some partnerPlayer =>
      let room := { room with players := killFirst (fun p =>
        p.id != player.id && p.specialRole == some SpecialRole.lover && p.isAlive) room.players }
      (room, [⟨partnerPlayer.name, partnerPlayer.id, partnerPlayer.role,
        partnerPlayer.specialRole, true, false⟩], some partnerPlayer)
    | none => (room, [], none)
  else (room, [], none)

/-- The state mutations of `eliminatePlayer` after the snapshot push:
mark the voted-out player dead, record the game's first elimination,
track a first-eliminated duelist, and run the Lover chain. -/
def elimSideEffects (room : Room) (player : Player) (playerId : Nat) :
    Room × List ElimInfo :=
  let room := { room with players := killFirst (fun p => p.id == playerId && p.isAlive) room.players }
  let room := if room.firstEliminatedId = none then
      { room with firstEliminatedId := some player.id }
    else room
  let room := trackDuelistElimination room player
  let eliminated := [(⟨player.name, player.id, player.role, player.specialRole,
    false, false⟩ : ElimInfo)]
  let chain := loversChain room player
  let room := chain.1
  let eliminated := eliminated ++ chain.2.1
  let room := match chain.2.2 with
    | some partnerPlayer => trackDuelistElimination room partnerPlayer
    | none => room
  (room, eliminated)

/-- The branch dispatch at the end of `eliminatePlayer`: Mr. White
guess phase, Revenger revenge phase, game over, or next round. -/
def elimDispatch (room : Room) (player : Player) (eliminated : List ElimInfo)
    (memeChanceRoll memeIdxRoll : Nat) : ElimResult :=
  if player.role == some Role.mrWhite then
    .mrWhiteChance { room with
      status := Status.mrWhiteGuess
      mrWhiteGuesserId := some player.id } eliminated
  else if player.specialRole == some SpecialRole.revenger &&
      decide ((room.players.filter (fun p => p.isAlive)).length > 0) then
    .revengerChance { room with status := Status.revengerRevenge, revengerTargetId := none }
      eliminated player.id player.name
  else
    match checkWinCondition room with
    | some gameResult =>
      let room := { room with status := Status.finished }
      let room := (awardPoints room gameResult.winners false).1
      .gameOver room eliminated gameResult.winners gameResult.reason
    | none =>
      let room := { room with round := room.round + 1 }
      let room := updateSpeakingOrder room
      let room :=
        if room.settings.enabledSpecialRoles.contains SpecialRole.mrMeme then
          selectMrMemePlayer room memeChanceRoll memeIdxRoll
        else room
      .continueGame room eliminated

/-- The body of `eliminatePlayer` once the voted-out player has been
found alive: snapshot for undo, apply the elimination and its side
effects, then dispatch. -/
def eliminatePlayerFound (room : Room) (player : Player) (playerId : Nat)
    (memeChanceRoll memeIdxRoll : Nat) : ElimResult :=
  let room := pushSnapshot room
  let se := elimSideEffects room player playerId
  elimDispatch se.1 player se.2 memeChanceRoll memeIdxRoll

/-- `GameManager.eliminatePlayer`: host records who was voted out.
Fails without touching the room unless the room is `PLAYING` and the
named player is currently alive.  `memeChanceRoll`/`memeIdxRoll` feed
the Mr. Meme draw of the next round when the game continues. -/
def eliminatePlayer (room : Room) (playerId : Nat) (memeChanceRoll memeIdxRoll : Nat) :
    ElimResult :=
  if room.status ≠ Status.playing then .failure "Cannot eliminate now" room
  else
    match room.players.find? (fun p => p.id == playerId && p.isAlive) with
    | none => .failure "Player not found or already eliminated" room
    | some player => eliminatePlayerFound room player playerId memeChanceRoll memeIdxRoll

/-- `GameManager.revengerPickVictim`: the eliminated Revenger takes one
alive player (and that victim's Lover partner, if any) down with them. -/
def revengerPickVictim (room : Room) (victimId : Nat) (memeChanceRoll memeIdxRoll : Nat) :
    ElimResult :=
  if room.status ≠ Status.revengerRevenge then .failure "Cannot pick victim now" room
  else
    match room.players.find? (fun p => p.id == victimId && p.isAlive) with
    | none => .failure "Victim not found or already eliminated" room
    | some victim =>
      let room := pushSnapshot room
      let room := { room with players := killFirst (fun p => p.id == victimId && p.isAlive) room.players }
      let room := { room with revengerTargetId := some victimId }
      let room := trackDuelistElimination room victim
      let eliminated := [(⟨victim.name, victim.id, victim.role, victim.specialRole,
        false, true⟩ : ElimInfo)]
      let chain := loversChain room victim
      let room := chain.1
      let eliminated := eliminated ++ chain.2.1
      if victim.role == some Role.mrWhite then
        .mrWhiteChance { room with
          status := Status.mrWhiteGuess
          mrWhiteGuesserId := some victim.id } eliminated
      else
        match checkWinCondition room with
        | some gameResult =>
          let room := { room with status := Status.finished }
          let room := (awardPoints room gameResult.winners false).1
          .gameOver room eliminated gameResult.winners gameResult.reason
        | none =>
          let room := { room with status := Status.playing, round := room.round + 1 }
          let room := updateSpeakingOrder room
          let room :=
            if room.settings.enabledSpecialRoles.contains SpecialRole.mrMeme then
              selectMrMemePlayer room memeChanceRoll memeIdxRoll
            else room
          .continueGame room eliminated

/-- `GameManager.skipElimination` (tie vote): advance the round without
eliminating anyone. -/
def skipElimination (room : Room) (memeChanceRoll memeIdxRoll : Nat) : OpResult :=
  if room.status ≠ Status.playing then .failure "Cannot skip now" room
  else
    let room := { room with round := room.round + 1 }
    let room := updateSpeakingOrder room
    let room :=
      if room.settings.enabledSpecialRoles.contains SpecialRole.mrMeme then
        selectMrMemePlayer room memeChanceRoll memeIdxRoll
      else room
    .ok room

/-! ### Mr. White's guess -/

inductive GuessResult
  | failure (error : String) (room : Room)
  | thrown (room : Room)
  | correct (room : Room) (winners : List Faction) (winReason : String)
  | incorrectOver (room : Room) (guess : String) (winners : List Faction) (winReason : String)
  | incorrectContinue (room : Room) (guess : String)
deriving DecidableEq, Repr

def GuessResult.room : GuessResult → Room
  | .failure _ r => r
  | .thrown r => r
  | .correct r _ _ => r
  | .incorrectOver r _ _ _ => r
  | .incorrectContinue r _ => r

def GuessResult.winners : GuessResult → List Faction
  | .correct _ w _ => w
  | .incorrectOver _ _ w _ => w
  | _ => []

/-- `GameManager.mrWhiteGuess`: compare the lowercased, trimmed guess
with the lowercased civilian word; a match ends the game with Mr. White
winning, otherwise evaluate the win condition and resume play if the
game is not over.  A missing word pair makes the JavaScript throw after
the snapshot push (`thrown`); the dispatch layer turns that into a
failure reply. -/
def mrWhiteGuess (room : Room) (guess : String) : GuessResult :=
  if room.status ≠ Status.mrWhiteGuess then .failure "Cannot guess now" room
  else
    let room := pushSnapshot room
    match room.wordPair with
    | none => .thrown room
    | some wp =>
      let civilianWord := toLowerStr wp.civ
      let guessLower := trimStr (toLowerStr guess)
      if guessLower = civilianWord then
        let room := { room with status := Status.finished }
        let room := (awardPoints room [Faction.mrWhite] true).1
        let mrWhiteName :=
          ((room.players.find? (fun p => some p.id == room.mrWhiteGuesserId)).map
            (fun p => p.name)).getD ""
        .correct room [Faction.mrWhite]
          ("Mr. White (" ++ mrWhiteName ++ ") correctly guessed the word: " ++ wp.civ ++ "!")
      else
        match checkWinCondition room with
        | some gameResult =>
          let room := { room with status := Status.finished }
          let room := (awardPoints room gameResult.winners false).1
          .incorrectOver room guess gameResult.winners gameResult.reason
        | none =>
          let room := { room with status := Status.playing, round := room.round + 1 }
          .incorrectContinue (updateSpeakingOrder room) guess

/-! ### Play-again reset, score reset and public view -/

/-- The per-player part of `resetRoom`: clear per-game state, keep the
cumulative score counters. -/
def resetPlayerForNewGame (p : Player) : Player :=
  { p with
    role := none
    word := none
    isAlive := true
    hasRevealed := false
    specialRole := none
    specialRolePartner := none }

/-- The per-player part of `resetScores`. -/
def resetPlayerScores (p : Player) : Player :=
  { p with score := 0, gamesPlayed := 0, gamesWon := 0 }

/-- `GameManager.resetRoom` (the `PLAY_AGAIN` handler): back to
`WAITING`, clearing game state but preserving scores and history. -/
def resetRoom (room : Room) : Room :=
  let room := { room with
    status := Status.waiting
    wordPair := none
    speakingOrder := []
    round := 0
    mrWhiteGuesserId := none
    undoStack := []
    specialRoles := initialSpecialRolesState
    firstEliminatedId := none
    revengerTargetId := none }
  { room with players := room.players.map (fun p =>
      { p with
        role := none
        word := none
        isAlive := true
        hasRevealed := false
        specialRole := none
        specialRolePartner := none }) }

/-- `GameManager.resetScores`: clear history and every player's
cumulative counters. -/
def resetScores (room : Room) : Room :=
  let room := { room with gameHistory := [] }
  { room with players := room.players.map (fun p =>
      { p with
        score := 0
        gamesPlayed := 0
        gamesWon := 0 }) }

/-- The players array of the public room view. -/
structure PublicPlayer where
  id : Nat
  name : String
  isAlive : Bool
  isHost : Bool
  hasRevealed : Bool
  score : Int
  gamesPlayed : Nat
  gamesWon : Nat
  role : Option Role
  word : Option String
  specialRole : Option SpecialRole
  specialRolePartner : Option String
deriving DecidableEq, Repr

/-- The public room view returned to callers. -/
structure PublicRoom where
  code : String
  status : Status
  round : Nat
  settings : Settings
  speakingOrder : List (Nat × String)
  players : List PublicPlayer
  mrWhiteGuesserId : Option Nat
  wordPair : Option WordPair
  leaderboard : List LeaderEntry
  gamesPlayedTotal : Nat
  mrMemeCurrentMimeId : Option Nat
  revengerTargetId : Option Nat
deriving DecidableEq, Repr

/-- One player's entry in the public view; `reveal` tells whether the
hidden fields are included. -/
def publicPlayer (reveal : Bool) (p : Player) : PublicPlayer :=
  ⟨p.id, p.name, p.isAlive, p.isHost, p.hasRevealed, p.score, p.gamesPlayed, p.gamesWon,
   (if reveal then p.role else none), (if reveal then p.word else none),
   (if reveal then p.specialRole else none), (if reveal then p.specialRolePartner else none)⟩

/-- `GameManager.getPublicRoomState`: redact `role`, `word`,
`specialRole` and `specialRolePartner` to null during active play unless
the caller is privileged. -/
def getPublicRoomState (room : Room) (includeSecrets : Bool) : PublicRoom :=
  let isGameActive := room.status ≠ Status.waiting ∧ room.status ≠ Status.finished
  let isRoleReveal := room.status = Status.roleReveal
  let reveal := isRoleReveal ∨ ¬ isGameActive ∨ includeSecrets = true
  { code := room.code
    status := room.status
    round := room.round
    settings := room.settings
    speakingOrder := room.speakingOrder
    players := room.players.map (publicPlayer (decide reveal))
    mrWhiteGuesserId := room.mrWhiteGuesserId
    wordPair := if room.status = Status.finished then room.wordPair else none
    leaderboard := getLeaderboard room
    gamesPlayedTotal := room.gameHistory.length
    mrMemeCurrentMimeId := room.specialRoles.mrMemeCurrentMimeId
    revengerTargetId := room.revengerTargetId }

/-! ### Reachability through the public operations -/

/-- Room states reachable from a started game through the public
operations: the base case is the room produced by any successful
`startGame` call, and each step applies one public operation (the room
carried by the result; failed operations return the room unchanged). -/
inductive Reachable : Room → Prop
  | start (w : Room) (sid : String) (rand : StartRand) (wp : WordPair) (r : Room) :
      startGame w sid rand wp = StartResult.ok r → Reachable r
  | reveal (r : Room) (pid : Nat) : Reachable r → Reachable ((revealRole r pid).room)
  | eliminate (r : Room) (pid m1 m2 : Nat) :
      Reachable r → Reachable ((eliminatePlayer r pid m1 m2).room)
  | revenge (r : Room) (vid m1 m2 : Nat) :
      Reachable r → Reachable ((revengerPickVictim r vid m1 m2).room)
  | skipElim (r : Room) (m1 m2 : Nat) :
      Reachable r → Reachable ((skipElimination r m1 m2).room)
  | whiteGuess (r : Room) (g : String) : Reachable r → Reachable ((mrWhiteGuess r g).room)
  | undo (r : Room) : Reachable r → Reachable ((undoLastAction r).room)
  | playAgain (r : Room) : Reachable r → Reachable (resetRoom r)
  | scoresReset (r : Room) : Reachable r → Reachable (resetScores r)
  | changeSettings (r : Room) (sid : String) (u : SettingsUpdate) (cats : List String) :
      Reachable r → Reachable ((updateSettings r sid u cats).room)

/-! ### A concrete five-player session

Host Alice creates a room, adds Bob, Carol, Dave and Eve, and enables
the Revenger and Lover special roles (both at their default 100%
chance).  All injected shuffle rolls are chosen so that every
Fisher-Yates step swaps an element with itself, keeping the arrays in
insertion order: Alice draws the single Undercover role and the
Revenger special role, Bob and Carol become the Lover pair. -/

def exCats : List String := ["Food"]

def exRoom0 : Room := createRoom "ABCD" "host" "Alice" 1 exCats

def exRoom1 : Room := (addLocalPlayer exRoom0 "host" "Bob" 2).room

def exRoom2 : Room := (addLocalPlayer exRoom1 "host" "Carol" 3).room

def exRoom3 : Room := (addLocalPlayer exRoom2 "host" "Dave" 4).room

def exRoom4 : Room := (addLocalPlayer exRoom3 "host" "Eve" 5).room

def exUpd : SettingsUpdate :=
  ⟨none, none, none, none, none, some [SpecialRole.revenger, SpecialRole.lover], none⟩

def exWaiting : Room := (updateSettings exRoom4 "host" exUpd exCats).room

def exRand : StartRand := ⟨[4, 3, 2, 1], [4, 3, 2, 1], 0, 0, 0, 0, [4, 3, 2, 1], [], 0, 0⟩

def exPair : WordPair := ⟨"Pizza", "Burger"⟩

def exStarted : Room := (startGame exWaiting "host" exRand exPair).room

def exReveal1 : Room := (revealRole exStarted 1).room

def exReveal2 : Room := (revealRole exReveal1 2).room

def exReveal3 : Room := (revealRole exReveal2 3).room

def exReveal4 : Room := (revealRole exReveal3 4).room

def exPlaying : Room := (revealRole exReveal4 5).room

def exElim4 : Room := (eliminatePlayer exPlaying 4 0 0).room

def exElim5 : Room := (eliminatePlayer exElim4 5 0 0).room

def exElim1 : Room := (eliminatePlayer exElim5 1 0 0).room

/-- After civilians Dave and Eve are voted out, the Undercover Revenger
Alice is voted out and takes Lover Bob down, which drags Lover Carol
along: nobody is left alive. -/
def exFinal : Room := (revengerPickVictim exElim1 2 0 0).room

/-- C7 counterexample: a room state reachable from a started game in
which the bad-guys-outnumber condition holds (0 + 0 ≥ 0) while alive
Undercover = 0 and alive Mr. White = 0 — the Revenger revenge plus the
Lover chain emptied every pool at once, so the outnumber branch fired
with no bad guy alive (and an empty winner list). -/
theorem checkWin_overlap_reachable :
    Reachable exFinal ∧
    aliveUndercoverCount exFinal + aliveMrWhiteCount exFinal ≥ aliveCiviliansCount exFinal ∧
    aliveUndercoverCount exFinal = 0 ∧ aliveMrWhiteCount exFinal = 0 ∧
    checkWinCondition exFinal = some ⟨[], "The bad guys outnumber the civilians!"⟩ := by
  refine ⟨?_, by decide, by decide, by decide, by decide⟩
  have h0 : Reachable exStarted :=
    Reachable.start exWaiting "host" exRand exPair exStarted (by decide)
  exact Reachable.revenge exElim1 2 0 0
    (Reachable.eliminate exElim5 1 0 0
      (Reachable.eliminate exElim4 5 0 0
        (Reachable.eliminate exPlaying 4 0 0
          (Reachable.reveal exReveal4 5
            (Reachable.reveal exReveal3 4
              (Reachable.reveal exReveal2 3
                (Reachable.reveal exReveal1 2
                  (Reachable.reveal exStarted 1 h0))))))))

/-- C7 amended: the two win branches of `checkWinCondition` are mutually
exclusive in every room state with at least one alive role-holding
player; the only overlap is the all-eliminated state (which is reachable
via a Revenger revenge triggering a Lover chain, see the
counterexample), where the outnumber branch fires with no bad guy
alive. -/
theorem checkWin_branches_exclusive (room : Room)
    (h : 1 ≤ aliveUndercoverCount room + aliveMrWhiteCount room + aliveCiviliansCount room) :
    ¬(aliveUndercoverCount room + aliveMrWhiteCount room ≥ aliveCiviliansCount room ∧
      aliveUndercoverCount room = 0 ∧ aliveMrWhiteCount room = 0) := by
  rintro ⟨hge, hU, hW⟩
  omega

theorem checkWin_branches_exclusive_witness :
    (1 ≤ aliveUndercoverCount exPlaying + aliveMrWhiteCount exPlaying +
        aliveCiviliansCount exPlaying) ∧
    ¬(aliveUndercoverCount exPlaying + aliveMrWhiteCount exPlaying ≥
        aliveCiviliansCount exPlaying ∧
      aliveUndercoverCount exPlaying = 0 ∧ aliveMrWhiteCount exPlaying = 0) :=
  ⟨by decide, checkWin_branches_exclusive exPlaying (by decide)⟩

theorem trackDuelist_undoStack (r : Room) (p : Player) :
    (trackDuelistElimination r p).undoStack = r.undoStack := by
  unfold trackDuelistElimination
  split <;> rfl

theorem loversChain_undoStack (r : Room) (p : Player) :
    (loversChain r p).1.undoStack = r.undoStack := by
  unfold loversChain
  split
  · split <;> rfl
  · rfl

theorem selectMrMeme_undoStack (r : Room) (c i : Nat) :
    (selectMrMemePlayer r c i).undoStack = r.undoStack := by
  unfold selectMrMemePlayer
  split
  · rfl
  split
  · rfl
  dsimp only
  split <;> rfl

theorem awardPoints_undoStack (r : Room) (w : List Faction) (b : Bool) :
    ((awardPoints r w b).1).undoStack = r.undoStack := rfl

theorem elimSideEffects_undoStack (r : Room) (p : Player) (pid : Nat) :
    (elimSideEffects r p pid).1.undoStack = r.undoStack := by
  unfold elimSideEffects
  dsimp only
  split
  · rw [trackDuelist_undoStack, loversChain_undoStack, trackDuelist_undoStack]
    split <;> rfl
  · rw [loversChain_undoStack, trackDuelist_undoStack]
    split <;> rfl

theorem elimDispatch_undoStack (r : Room) (p : Player) (e : List ElimInfo) (m1 m2 : Nat) :
    (elimDispatch r p e m1 m2).room.undoStack = r.undoStack := by
  unfold elimDispatch
  split
  · rfl
  split
  · rfl
  split
  · rfl
  dsimp only [ElimResult.room]
  split
  · rw [selectMrMeme_undoStack]
    rfl
  · rfl

theorem elimFound_stack (room : Room) (player : Player) (pid m1 m2 : Nat) :
    (eliminatePlayerFound room player pid m1 m2).room.undoStack =
      snapshotRoom room :: room.undoStack := by
  unfold eliminatePlayerFound
  rw [elimDispatch_undoStack, elimSideEffects_undoStack]
  rfl

theorem elimDispatch_isSuccess (r : Room) (p : Player) (e : List ElimInfo) (m1 m2 : Nat) :
    (elimDispatch r p e m1 m2).isSuccess = true := by
  unfold elimDispatch
  repeat' split
  all_goals rfl

theorem undo_of_stack (r2 room : Room)
    (h : r2.undoStack = snapshotRoom room :: room.undoStack) :
    undoLastAction r2 = UndoResult.ok { r2 with
      status := room.status
      players := room.players
      speakingOrder := room.speakingOrder
      round := room.round
      mrWhiteGuesserId := room.mrWhiteGuesserId
      wordPair := room.wordPair
      specialRoles := room.specialRoles
      firstEliminatedId := room.firstEliminatedId
      revengerTargetId := room.revengerTargetId
      undoStack := room.undoStack } := by
  unfold undoLastAction
  rw [h]
  rfl

theorem undo_empty (room : Room) (h : room.undoStack = []) :
    undoLastAction room = UndoResult.failure "Nothing to undo" room := by
  unfold undoLastAction
  rw [h]

/-- C3 (amended): after any successful elimination, Undo pops the
snapshot pushed by that elimination and restores every snapshot-covered
field — status, players (reviving the eliminated), speaking order,
round, Mr. White guesser bookkeeping, word pair, special-role state —
to its exact pre-action value and pops the stack; however `gameHistory`
stays whatever the elimination left (a game-ending elimination's
appended history entry is not reverted, see the counterexample).  On an
empty stack Undo fails with "Nothing to undo" and mutates nothing. -/
theorem undo_spec (room : Room) (pid m1 m2 : Nat)
    (h : (eliminatePlayer room pid m1 m2).isSuccess = true) :
    undoLastAction ((eliminatePlayer room pid m1 m2).room) =
      UndoResult.ok { (eliminatePlayer room pid m1 m2).room with
        status := room.status
        players := room.players
        speakingOrder := room.speakingOrder
        round := room.round
        mrWhiteGuesserId := room.mrWhiteGuesserId
        wordPair := room.wordPair
        specialRoles := room.specialRoles
        firstEliminatedId := room.firstEliminatedId
        revengerTargetId := room.revengerTargetId
        undoStack := room.undoStack } ∧
    (room.undoStack = [] → undoLastAction room = UndoResult.failure "Nothing to undo" room) := by
  refine ⟨?_, undo_empty room⟩
  unfold eliminatePlayer at h ⊢
  split at h
  next hst => simp [ElimResult.isSuccess] at h
  next hst =>
    rw [if_neg hst]
    split at h
    next hfind => simp [ElimResult.isSuccess] at h
    next player hfind =>
      exact undo_of_stack _ room (elimFound_stack room player pid m1 m2)

/-- C2: `eliminatePlayer` succeeds only if the room is `PLAYING` and
the named player is currently alive; in `PLAYING`, when no alive player
has the given id it fails with the "Player not found or already
eliminated" rejection and returns the room completely unchanged. -/
theorem eliminatePlayer_contract (room : Room) (pid m1 m2 : Nat) :
    ((eliminatePlayer room pid m1 m2).isSuccess = true →
      room.status = Status.playing ∧
      ∃ p, p ∈ room.players ∧ p.id = pid ∧ p.isAlive = true)
  ∧ (room.status = Status.playing →
      (∀ p, p ∈ room.players → p.id = pid → p.isAlive = false) →
      eliminatePlayer room pid m1 m2 =
        ElimResult.failure "Player not found or already eliminated" room) := by
  constructor
  · intro h
    unfold eliminatePlayer at h
    split at h
    next hst => simp [ElimResult.isSuccess] at h
    next hst =>
      have hst' : room.status = Status.playing := not_not.mp hst
      split at h
      next hfind => simp [ElimResult.isSuccess] at h
      next player hfind =>
        have hmem := List.mem_of_find?_eq_some hfind
        have hpred := List.find?_some hfind
        simp only [Bool.and_eq_true, beq_iff_eq] at hpred
        exact ⟨hst', player, hmem, hpred.1, hpred.2⟩
  · intro hst hdead
    unfold eliminatePlayer
    rw [if_neg (by simp [hst])]
    have hnone : room.players.find? (fun p => p.id == pid && p.isAlive) = none := by
      rw [List.find?_eq_none]
      intro p hp
      simp only [Bool.and_eq_true, beq_iff_eq, not_and]
      intro hid
      simp [hdead p hp hid]
    rw [hnone]

def cexPlayer (i : Nat) (sid : Option String) (n : String) (h : Bool) (r : Role) (w : String) :
    Player :=
  { newPlayer i sid n h with role := some r, word := some w, hasRevealed := true }

/-- A three-player room mid-game: Undercover host A plus civilians B
and C, empty undo stack and empty game history. -/
def cexRoom : Room :=
  { createRoom "QQQQ" "h" "A" 1 ["Food"] with
    status := Status.playing
    round := 1
    wordPair := some ⟨"Pizza", "Burger"⟩
    players := [cexPlayer 1 (some "h") "A" true Role.undercover "Burger",
                cexPlayer 2 none "B" false Role.civilian "Pizza",
                cexPlayer 3 none "C" false Role.civilian "Pizza"] }

/-- C3 counterexample: eliminating civilian B in `cexRoom` ends the
game (1 bad guy vs 1 civilian alive), which appends a `gameHistory`
entry; the following Undo succeeds but does not restore the room to
exactly its pre-action state — the appended history entry survives. -/
theorem undo_gameHistory_counterexample :
    (eliminatePlayer cexRoom 2 0 0).isSuccess = true ∧
    (undoLastAction ((eliminatePlayer cexRoom 2 0 0).room)).isOk = true ∧
    ((undoLastAction ((eliminatePlayer cexRoom 2 0 0).room)).room).gameHistory ≠
      cexRoom.gameHistory := by
  refine ⟨by decide, by decide, by decide⟩

theorem undo_spec_witness :
    (undoLastAction ((eliminatePlayer cexRoom 2 0 0).room) =
      UndoResult.ok { (eliminatePlayer cexRoom 2 0 0).room with
        status := cexRoom.status
        players := cexRoom.players
        speakingOrder := cexRoom.speakingOrder
        round := cexRoom.round
        mrWhiteGuesserId := cexRoom.mrWhiteGuesserId
        wordPair := cexRoom.wordPair
        specialRoles := cexRoom.specialRoles
        firstEliminatedId := cexRoom.firstEliminatedId
        revengerTargetId := cexRoom.revengerTargetId
        undoStack := cexRoom.undoStack }) ∧
    (cexRoom.undoStack = [] →
      undoLastAction cexRoom = UndoResult.failure "Nothing to undo" cexRoom) :=
  undo_spec cexRoom 2 0 0 (by decide)

theorem eliminatePlayer_contract_witness :
    (cexRoom.status = Status.playing ∧
      ∃ p, p ∈ cexRoom.players ∧ p.id = 2 ∧ p.isAlive = true) ∧
    eliminatePlayer cexRoom 99 0 0 =
      ElimResult.failure "Player not found or already eliminated" cexRoom :=
  ⟨(eliminatePlayer_contract cexRoom 2 0 0).1 (by decide),
   (eliminatePlayer_contract cexRoom 99 0 0).2 (by decide) (by decide)⟩

/-- C4: with the host verified, `startGame` fails exactly when the
player count is below 3, the bad-role count (undercover count plus one
if Mr. White is enabled) is at least player count minus 1, or zero
categories are selected; every failure returns the room completely
unchanged (so a `WAITING` room stays `WAITING` with no role or word
assigned). -/
theorem startGame_validation (room : Room) (sid : String) (rand : StartRand) (wp : WordPair)
    (host : Player)
    (hhost : room.players.find? (fun p => p.isHost) = some host)
    (hsid : host.socketId = some sid) :
    (∀ e r2, startGame room sid rand wp = StartResult.failure e r2 → r2 = room)
  ∧ ((∃ e r2, startGame room sid rand wp = StartResult.failure e r2)
      ↔ (room.players.length < 3
          ∨ room.settings.undercoverCount + (if room.settings.includeMrWhite then 1 else 0)
              ≥ (room.players.length : Int) - 1
          ∨ room.settings.selectedCategories = [])) := by
  unfold startGame
  simp only [hhost]
  have hs : ¬(host.socketId ≠ some sid) := by simp [hsid]
  rw [if_neg hs]
  by_cases h1 : room.players.length < 3
  · rw [if_pos h1]
    refine ⟨fun e r2 he => ?_, ⟨fun _ => Or.inl h1, fun _ => ⟨_, _, rfl⟩⟩⟩
    injection he with h h'
    exact h'.symm
  · rw [if_neg h1]
    by_cases h2 : room.settings.undercoverCount +
        (if room.settings.includeMrWhite then 1 else 0) ≥ (room.players.length : Int) - 1
    · rw [if_pos h2]
      refine ⟨fun e r2 he => ?_, ⟨fun _ => Or.inr (Or.inl h2), fun _ => ⟨_, _, rfl⟩⟩⟩
      injection he with h h'
      exact h'.symm
    · rw [if_neg h2]
      by_cases h3 : room.settings.selectedCategories.length = 0
      · rw [if_pos h3]
        refine ⟨fun e r2 he => ?_,
          ⟨fun _ => Or.inr (Or.inr (List.length_eq_zero.mp h3)), fun _ => ⟨_, _, rfl⟩⟩⟩
        injection he with h h'
        exact h'.symm
      · rw [if_neg h3]
        refine ⟨fun e r2 he => StartResult.noConfusion he, ⟨?_, ?_⟩⟩
        · rintro ⟨e, r2, he⟩
          exact StartResult.noConfusion he
        · rintro (h | h | h)
          · exact absurd h h1
          · exact absurd h h2
          · exact absurd (by simp [h]) h3

theorem startGame_validation_witness :
    ((∀ e r2, startGame exRoom1 "host" exRand exPair = StartResult.failure e r2 → r2 = exRoom1)
  ∧ ((∃ e r2, startGame exRoom1 "host" exRand exPair = StartResult.failure e r2)
      ↔ (exRoom1.players.length < 3
          ∨ exRoom1.settings.undercoverCount +
              (if exRoom1.settings.includeMrWhite then 1 else 0)
              ≥ (exRoom1.players.length : Int) - 1
          ∨ exRoom1.settings.selectedCategories = []))) :=
  startGame_validation exRoom1 "host" exRand exPair (newPlayer 1 (some "host") "Alice" true)
    (by decide) (by decide)

theorem awardPoints_status (r : Room) (w : List Faction) (b : Bool) :
    ((awardPoints r w b).1).status = r.status := rfl

theorem checkWin_mrWhite_not_winner (r : Room)
    (hdead : ∀ p, p ∈ r.players → p.role = some Role.mrWhite → p.isAlive = false) :
    ∀ w, checkWinCondition r = some w → Faction.mrWhite ∉ w.winners := by
  intro w hw
  unfold checkWinCondition at hw
  have hempty :
      (r.players.filter (fun p => p.isAlive)).filter (fun p => p.role == some Role.mrWhite)
        = [] := by
    rw [List.filter_eq_nil_iff]
    intro p hp
    rcases List.mem_filter.mp hp with ⟨hmem, halive⟩
    simp only [beq_iff_eq]
    intro hrole
    have := hdead p hmem hrole
    simp [this] at halive
  simp only [hempty, List.length_nil] at hw
  split at hw
  · injection hw with hw'
    subst hw'
    simp only [List.mem_append]
    rintro (h | h)
    · split at h <;> simp_all
    · simp at h
  · split at hw
    · injection hw with hw'
      subst hw'
      simp
    · exact Option.noConfusion hw

/-- C6: in the Mr. White guess phase, a guess whose lowercased, trimmed
form equals the lowercased civilian word always yields the correct-guess
result: the room is `FINISHED` and the winners are exactly
`[Mr. White]`, with no condition on how many other bad guys remain
alive; a non-matching guess never puts Mr. White among the winners
(given that, as in every reachable guess phase, no Mr. White is still
alive). -/
theorem mrWhiteGuess_spec (room : Room) (guess : String) (wp : WordPair)
    (hstatus : room.status = Status.mrWhiteGuess) (hwp : room.wordPair = some wp) :
    (trimStr (toLowerStr guess) = toLowerStr wp.civ →
      ∃ r2 reason, mrWhiteGuess room guess = GuessResult.correct r2 [Faction.mrWhite] reason ∧
        r2.status = Status.finished)
  ∧ (trimStr (toLowerStr guess) ≠ toLowerStr wp.civ →
      (∀ p, p ∈ room.players → p.role = some Role.mrWhite → p.isAlive = false) →
      Faction.mrWhite ∉ (mrWhiteGuess room guess).winners) := by
  unfold mrWhiteGuess
  rw [if_neg (by simp [hstatus])]
  have hwp2 : (pushSnapshot room).wordPair = some wp := hwp
  simp only [hwp2]
  constructor
  · intro hmatch
    rw [if_pos hmatch]
    exact ⟨_, _, rfl, rfl⟩
  · intro hne hdead
    rw [if_neg hne]
    have hdead2 : ∀ p, p ∈ (pushSnapshot room).players →
        p.role = some Role.mrWhite → p.isAlive = false := hdead
    split
    next w hw =>
      exact checkWin_mrWhite_not_winner (pushSnapshot room) hdead2 w hw
    next hw =>
      simp [GuessResult.winners]

/-- A four-player room in the Mr. White guess phase: Mr. White D was
just eliminated, Undercover A and civilians B and C remain alive. -/
def cexGuessRoom : Room :=
  { createRoom "WWWW" "h" "A" 1 ["Food"] with
    status := Status.mrWhiteGuess
    round := 2
    wordPair := some ⟨"Pizza", "Burger"⟩
    mrWhiteGuesserId := some 4
    players := [cexPlayer 1 (some "h") "A" true Role.undercover "Burger",
                cexPlayer 2 none "B" false Role.civilian "Pizza",
                cexPlayer 3 none "C" false Role.civilian "Pizza",
                { cexPlayer 4 none "D" false Role.mrWhite "x" with
                    word := none, isAlive := false }] }

theorem mrWhiteGuess_spec_witness :
    ((trimStr (toLowerStr "  PIZZA ") = toLowerStr (WordPair.civ ⟨"Pizza", "Burger"⟩) →
      ∃ r2 reason, mrWhiteGuess cexGuessRoom "  PIZZA " =
          GuessResult.correct r2 [Faction.mrWhite] reason ∧
        r2.status = Status.finished)
  ∧ (trimStr (toLowerStr "  PIZZA ") ≠ toLowerStr (WordPair.civ ⟨"Pizza", "Burger"⟩) →
      (∀ p, p ∈ cexGuessRoom.players → p.role = some Role.mrWhite → p.isAlive = false) →
      Faction.mrWhite ∉ (mrWhiteGuess cexGuessRoom "  PIZZA ").winners)) :=
  mrWhiteGuess_spec cexGuessRoom "  PIZZA " ⟨"Pizza", "Burger"⟩ (by decide) (by decide)

/-- C8: the play-again reset returns to `WAITING`, clears round, word
pair, speaking order, undo stack and special-role bookkeeping, and per
player clears role, word, `hasRevealed` and revives `isAlive`, while the
record update leaves each player's `score`, `gamesPlayed`, `gamesWon`,
the room's `gameHistory`, the roster and the room code untouched; those
cumulative fields are cleared exactly by the explicit score reset, whose
effect is the second conjunct. -/
theorem resetRoom_resetScores_spec (room : Room) :
    resetRoom room = { room with
      status := Status.waiting
      wordPair := none
      speakingOrder := []
      round := 0
      mrWhiteGuesserId := none
      undoStack := []
      specialRoles := initialSpecialRolesState
      firstEliminatedId := none
      revengerTargetId := none
      players := room.players.map resetPlayerForNewGame }
  ∧ resetScores room = { room with
      gameHistory := []
      players := room.players.map resetPlayerScores } :=
  ⟨rfl, rfl⟩

/-- C10: for a `WAITING` room with the caller verified as host,
`updateSettings` with an `undercoverCount` outside 1-4 (and no other
field supplied) returns success with the room — including
`settings.undercoverCount` and every other setting — completely
unchanged: the out-of-range value is silently ignored, not rejected. -/
theorem updateSettings_oob (room : Room) (sid : String) (v : Int) (cats : List String)
    (host : Player)
    (hhost : room.players.find? (fun p => p.isHost) = some host)
    (hsid : host.socketId = some sid)
    (hstatus : room.status = Status.waiting)
    (hv : ¬(1 ≤ v ∧ v ≤ 4)) :
    updateSettings room sid ⟨some v, none, none, none, none, none, none⟩ cats =
      OpResult.ok room := by
  unfold updateSettings
  simp only [hhost]
  rw [if_neg (by simp [hsid]), if_neg (by simp [hstatus]), if_neg hv]

theorem updateSettings_oob_witness :
    updateSettings exRoom0 "host" ⟨some 7, none, none, none, none, none, none⟩ ["Food"] =
      OpResult.ok exRoom0 :=
  updateSettings_oob exRoom0 "host" 7 ["Food"] (newPlayer 1 (some "host") "Alice" true)
    (by decide) (by decide) (by decide) (by decide)

/-- Erase the hidden per-player fields the claim is about. -/
def scrubPlayer (p : Player) : Player := { p with role := none, word := none }

theorem map_eq_of_scrub_eq {β : Type} (f : Player → β) (hf : ∀ p, f (scrubPlayer p) = f p)
    (l1 l2 : List Player) (h : l1.map scrubPlayer = l2.map scrubPlayer) :
    l1.map f = l2.map f := by
  have e1 : (l1.map scrubPlayer).map f = l1.map f := by
    rw [List.map_map]
    exact List.map_congr_left (fun a _ => hf a)
  have e2 : (l2.map scrubPlayer).map f = l2.map f := by
    rw [List.map_map]
    exact List.map_congr_left (fun a _ => hf a)
  rw [← e1, h, e2]

/-- C9: during active play (`PLAYING` or `MR_WHITE_GUESS`), the
non-privileged public view nulls every player's role and word, and two
rooms agreeing on everything except the hidden per-player role/word
assignments produce identical non-privileged views; the hidden fields
are included exactly during `ROLE_REVEAL`, outside active play
(`WAITING`/`FINISHED`), or for a privileged caller. -/
theorem publicView_spec (room1 room2 r : Room)
    (hst1 : room1.status = Status.playing ∨ room1.status = Status.mrWhiteGuess)
    (hagree : { room1 with players := room1.players.map scrubPlayer } =
              { room2 with players := room2.players.map scrubPlayer }) :
    ((getPublicRoomState room1 false).players.all
        (fun p => p.role == none && p.word == none) = true)
  ∧ getPublicRoomState room1 false = getPublicRoomState room2 false
  ∧ (r.status = Status.roleReveal ∨ r.status = Status.waiting ∨
        r.status = Status.finished →
      (getPublicRoomState r false).players = r.players.map (publicPlayer true))
  ∧ ((getPublicRoomState r true).players = r.players.map (publicPlayer true)) := by
  injection hagree with hcode hhostid hstat hwpair hplayers hsettings hspeak hround hguess
    hhist hundo hroles hfirst hrev
  refine ⟨?_, ?_, ?_, ?_⟩
  · rcases hst1 with h | h <;>
      simp [getPublicRoomState, publicPlayer, h, List.all_eq_true, List.mem_map]
  · have hst2 : room2.status = Status.playing ∨ room2.status = Status.mrWhiteGuess := by
      rw [← hstat]
      exact hst1
    unfold getPublicRoomState getLeaderboard
    have hflag1 : decide (room1.status = Status.roleReveal ∨
        ¬(room1.status ≠ Status.waiting ∧ room1.status ≠ Status.finished) ∨
        false = true) = false := by
      rcases hst1 with h | h <;> simp [h]
    have hflag2 : decide (room2.status = Status.roleReveal ∨
        ¬(room2.status ≠ Status.waiting ∧ room2.status ≠ Status.finished) ∨
        false = true) = false := by
      rcases hst2 with h | h <;> simp [h]
    simp only [hflag1, hflag2]
    have hmapped : room1.players.map (publicPlayer false) =
        room2.players.map (publicPlayer false) :=
      map_eq_of_scrub_eq (publicPlayer false) (fun p => rfl) _ _ hplayers
    have hlead : room1.players.map
          (fun p => (⟨p.id, p.name, p.score, p.gamesPlayed, p.gamesWon⟩ : LeaderEntry)) =
        room2.players.map
          (fun p => (⟨p.id, p.name, p.score, p.gamesPlayed, p.gamesWon⟩ : LeaderEntry)) :=
      map_eq_of_scrub_eq
        (fun p => (⟨p.id, p.name, p.score, p.gamesPlayed, p.gamesWon⟩ : LeaderEntry))
        (fun p => rfl) _ _ hplayers
    rw [hcode, hstat, hround, hsettings, hspeak, hguess, hwpair, hhist, hroles, hrev,
      hmapped, hlead]
  · intro hr
    rcases hr with h | h | h <;> simp [getPublicRoomState, h]
  · simp [getPublicRoomState]

/-- The mid-game room `cexRoom` with the hidden role and word
assignments permuted: B is the Undercover instead of A. -/
def cexRoomAlt : Room :=
  { cexRoom with
    players := [cexPlayer 1 (some "h") "A" true Role.civilian "Pizza",
                cexPlayer 2 none "B" false Role.undercover "Burger",
                cexPlayer 3 none "C" false Role.civilian "Pizza"] }

theorem publicView_spec_witness :
    (((getPublicRoomState cexRoom false).players.all
        (fun p => p.role == none && p.word == none) = true)
  ∧ getPublicRoomState cexRoom false = getPublicRoomState cexRoomAlt false
  ∧ (exRoom0.status = Status.roleReveal ∨ exRoom0.status = Status.waiting ∨
        exRoom0.status = Status.finished →
      (getPublicRoomState exRoom0 false).players = exRoom0.players.map (publicPlayer true))
  ∧ ((getPublicRoomState exRoom0 true).players = exRoom0.players.map (publicPlayer true))) :=
  publicView_spec cexRoom cexRoomAlt exRoom0 (Or.inl rfl) (by decide)

theorem set_get_cons (t : List α) (m : Nat) (a : α) (h : m < t.length) :
    List.Perm (t.get ⟨m, h⟩ :: t.set m a) (a :: t) := by
  induction t generalizing m with
  | nil => exact absurd h (by simp)
  | cons b t ih =>
    cases m with
    | zero => exact List.Perm.swap a b t
    | succ k =>
      have hk : k < t.length := Nat.lt_of_succ_lt_succ h
      exact ((List.Perm.swap b (t.get ⟨k, hk⟩) (t.set k a)).trans
        ((ih k hk).cons b)).trans (List.Perm.swap a b t)

theorem set_get_self_perm (l : List α) (i : Nat) (h : i < l.length) :
    List.Perm (l.set i (l.get ⟨i, h⟩)) l :=
  (set_get_cons l i (l.get ⟨i, h⟩) h).cons_inv

theorem set_set_swap_perm (l : List α) :
    ∀ (i j : Nat) (hi : i < l.length) (hj : j < l.length),
    List.Perm ((l.set i (l.get ⟨j, hj⟩)).set j (l.get ⟨i, hi⟩)) l := by
  induction l with
  | nil =>
    intro i j hi hj
    exact absurd hi (by simp)
  | cons c t ih =>
    intro i j hi hj
    cases i with
    | zero =>
      cases j with
      | zero => exact set_get_self_perm (c :: t) 0 hj
      | succ q => exact set_get_cons t q c (Nat.lt_of_succ_lt_succ hj)
    | succ p =>
      cases j with
      | zero => exact set_get_cons t p c (Nat.lt_of_succ_lt_succ hi)
      | succ q =>
        exact (ih p q (Nat.lt_of_succ_lt_succ hi) (Nat.lt_of_succ_lt_succ hj)).cons c

theorem swapNth_perm (l : List α) (i j : Nat) : List.Perm (swapNth l i j) l := by
  unfold swapNth
  split
  next a b hi hj =>
    obtain ⟨hil, ha⟩ := List.get?_eq_some.mp hi
    obtain ⟨hjl, hb⟩ := List.get?_eq_some.mp hj
    rw [← ha, ← hb]
    exact set_set_swap_perm l i j hil hjl
  next => exact List.Perm.refl l

theorem shuffleGo_perm (n : Nat) : ∀ (l : List α) (rolls : List Nat),
    List.Perm (shuffleGo l n rolls) l := by
  induction n with
  | zero => intro l rolls; exact List.Perm.refl l
  | succ i ih =>
    intro l rolls
    exact (ih _ _).trans (swapNth_perm l (i + 1) (rolls.headD 0 % (i + 2)))

theorem shuffleArray_perm (l : List α) (rolls : List Nat) :
    List.Perm (shuffleArray l rolls) l :=
  shuffleGo_perm (l.length - 1) l rolls

theorem reshuffle_perm (fuel : Nat) : ∀ (ps : List Player) (rs : List (List Nat)),
    List.Perm (reshuffleNotMrWhiteFirst ps rs fuel) ps := by
  induction fuel with
  | zero => intro ps rs; exact List.Perm.refl ps
  | succ f ih =>
    intro ps rs
    unfold reshuffleNotMrWhiteFirst
    split
    · exact (ih _ _).trans (shuffleArray_perm ps (rs.headD []))
    · exact List.Perm.refl ps

theorem countP_replicate (p : α → Bool) (a : α) (k : Nat) :
    List.countP p (List.replicate k a) = if p a then k else 0 := by
  induction k with
  | zero => simp
  | succ n ih =>
    rw [List.replicate_succ, List.countP_cons, ih]
    split <;> simp_all

theorem buildRoles_length (n : Nat) (uc : Int) (mw : Nat) (h : uc.toNat + mw ≤ n) :
    (buildRoles n uc mw).length = n := by
  simp [buildRoles]
  omega

theorem buildRoles_countP_civ (n : Nat) (uc : Int) (mw : Nat) :
    List.countP (fun r => r == Role.civilian) (buildRoles n uc mw)
      = n - (uc.toNat + mw) := by
  simp [buildRoles, List.countP_append, countP_replicate]

theorem zipWith_role_countP (ps : List Player) (rs : List Role) (h : ps.length = rs.length) :
    List.countP (fun p => p.role == some Role.civilian)
        (List.zipWith (fun p r => { p with role := some r }) ps rs)
      = List.countP (fun r => r == Role.civilian) rs := by
  induction ps generalizing rs with
  | nil =>
    cases rs with
    | nil => rfl
    | cons r rt => exact absurd h (by simp)
  | cons p pt ih =>
    cases rs with
    | nil => exact absurd h (by simp)
    | cons r rt =>
      rw [List.zipWith_cons_cons, List.countP_cons, List.countP_cons,
        ih rt (by simpa using h)]
      simp

theorem zipWith_role_isSome (ps : List Player) (rs : List Role) (h : ps.length ≤ rs.length) :
    ∀ q ∈ List.zipWith (fun p r => { p with role := some r }) ps rs, q.role.isSome = true := by
  induction ps generalizing rs with
  | nil => intro q hq; simp at hq
  | cons p pt ih =>
    cases rs with
    | nil => exact absurd h (by simp)
    | cons r rt =>
      intro q hq
      rw [List.zipWith_cons_cons, List.mem_cons] at hq
      rcases hq with hq | hq
      · subst hq; rfl
      · exact ih rt (by simpa using h) q hq

theorem countP_map_role (g : Player → Player) (hg : ∀ p, (g p).role = p.role)
    (l : List Player) (pred : Option Role → Bool) :
    List.countP (fun p => pred p.role) (l.map g)
      = List.countP (fun p => pred p.role) l := by
  rw [List.countP_map]
  exact List.countP_congr (fun a _ => by simp [Function.comp, hg a])

theorem applySpecialAssignment_role (jf rv : Option Player) (lp dp : Option (Player × Player))
    (p : Player) : (applySpecialAssignment jf rv lp dp p).role = p.role := by
  unfold applySpecialAssignment
  dsimp only
  repeat' split
  all_goals rfl

theorem resetSpecialPlayer_role (p : Player) : (resetSpecialPlayer p).role = p.role := rfl

theorem assignSpecialRoles_countP (room : Room) (s : List Nat) (j r lo du : Nat)
    (pred : Option Role → Bool) :
    List.countP (fun p => pred p.role) (assignSpecialRoles room s j r lo du).players
      = List.countP (fun p => pred p.role) room.players := by
  unfold assignSpecialRoles
  dsimp only
  rw [countP_map_role _ (applySpecialAssignment_role _ _ _ _),
    countP_map_role _ resetSpecialPlayer_role]

theorem assignSpecialRoles_role_mem (room : Room) (s : List Nat) (j r lo du : Nat) :
    ∀ q ∈ (assignSpecialRoles room s j r lo du).players,
      ∃ p ∈ room.players, q.role = p.role := by
  unfold assignSpecialRoles
  dsimp only
  intro q hq
  rw [List.mem_map] at hq
  obtain ⟨q1, hq1, rfl⟩ := hq
  rw [List.mem_map] at hq1
  obtain ⟨p, hp, rfl⟩ := hq1
  exact ⟨p, hp, by rw [applySpecialAssignment_role, resetSpecialPlayer_role]⟩

theorem selectMrMeme_players (r : Room) (c i : Nat) :
    (selectMrMemePlayer r c i).players = r.players := by
  unfold selectMrMemePlayer
  split
  · rfl
  split
  · rfl
  dsimp only
  split <;> rfl

theorem assignWordToPlayer_role (wp : WordPair) (p : Player) :
    (assignWordToPlayer wp p).role = p.role := rfl

theorem ifMeme_players (c : Prop) [Decidable c] (r : Room) (a b : Nat) :
    (if c then selectMrMemePlayer r a b else r).players = r.players := by
  split
  · exact selectMrMeme_players r a b
  · rfl

theorem countP_civ_map (g : Player → Player) (hg : ∀ p, (g p).role = p.role)
    (l : List Player) :
    List.countP (fun p => p.role == some Role.civilian) (l.map g)
      = List.countP (fun p => p.role == some Role.civilian) l :=
  countP_map_role g hg l (fun o => o == some Role.civilian)

theorem countP_civ_assignSpecial (room : Room) (s : List Nat) (j r lo du : Nat) :
    List.countP (fun p => p.role == some Role.civilian)
        (assignSpecialRoles room s j r lo du).players
      = List.countP (fun p => p.role == some Role.civilian) room.players :=
  assignSpecialRoles_countP room s j r lo du (fun o => o == some Role.civilian)

theorem countP_civ_assignRoles (room : Room) (rolls : List Nat)
    (hok : room.settings.undercoverCount.toNat +
        (if room.settings.includeMrWhite then 1 else 0) ≤ room.players.length) :
    List.countP (fun p => p.role == some Role.civilian) (assignRoles room rolls).players
      = room.players.length - (room.settings.undercoverCount.toNat +
          (if room.settings.includeMrWhite then 1 else 0)) := by
  unfold assignRoles
  dsimp only
  have hlen : (shuffleArray (buildRoles room.players.length room.settings.undercoverCount
      (if room.settings.includeMrWhite then 1 else 0)) rolls).length
      = room.players.length := by
    rw [(shuffleArray_perm _ _).length_eq, buildRoles_length _ _ _ hok]
  rw [zipWith_role_countP _ _ hlen.symm, (shuffleArray_perm _ _).countP_eq,
    buildRoles_countP_civ]

theorem startGamePipeline_countP (room : Room) (rand : StartRand) (wp : WordPair)
    (hok : room.settings.undercoverCount.toNat +
        (if room.settings.includeMrWhite then 1 else 0) ≤ room.players.length) :
    List.countP (fun p => p.role == some Role.civilian)
        (startGamePipeline room rand wp).players
      = room.players.length - (room.settings.undercoverCount.toNat +
          (if room.settings.includeMrWhite then 1 else 0)) := by
  unfold startGamePipeline
  dsimp only
  rw [ifMeme_players]
  dsimp only [updateSpeakingOrder]
  split
  · rw [(reshuffle_perm 10 _ _).countP_eq, (shuffleArray_perm _ _).countP_eq,
      countP_civ_map _ (assignWordToPlayer_role wp), countP_civ_assignSpecial,
      countP_civ_assignRoles _ _ hok]
  · rw [(shuffleArray_perm _ _).countP_eq,
      countP_civ_map _ (assignWordToPlayer_role wp), countP_civ_assignSpecial,
      countP_civ_assignRoles _ _ hok]

theorem buildRoles_length_ge (n : Nat) (uc : Int) (mw : Nat) :
    n ≤ (buildRoles n uc mw).length := by
  simp [buildRoles]
  omega

theorem assignRoles_isSome (room : Room) (rolls : List Nat) :
    ∀ q ∈ (assignRoles room rolls).players, q.role.isSome = true := by
  unfold assignRoles
  dsimp only
  apply zipWith_role_isSome
  rw [(shuffleArray_perm _ _).length_eq]
  exact buildRoles_length_ge _ _ _

theorem startGamePipeline_roles_isSome (room : Room) (rand : StartRand) (wp : WordPair) :
    ∀ p ∈ (startGamePipeline room rand wp).players, p.role.isSome = true := by
  unfold startGamePipeline
  dsimp only
  intro p hp
  rw [ifMeme_players] at hp
  dsimp only [updateSpeakingOrder] at hp
  have hp2 : p ∈ shuffleArray
      ((assignSpecialRoles (assignRoles room rand.roleRolls) rand.specialShuffleRolls
        rand.jfRoll rand.revRoll rand.loverRoll rand.duelRoll).players.map
          (assignWordToPlayer wp)) rand.playerShuffleRolls := by
    split at hp
    · exact ((reshuffle_perm 10 _ _).mem_iff).mp hp
    · exact hp
  have hp3 := ((shuffleArray_perm _ _).mem_iff).mp hp2
  rw [List.mem_map] at hp3
  obtain ⟨q, hq, rfl⟩ := hp3
  rw [assignWordToPlayer_role]
  obtain ⟨q0, hq0, hrole⟩ := assignSpecialRoles_role_mem _ _ _ _ _ _ q hq
  rw [hrole]
  exact assignRoles_isSome room rand.roleRolls q0 hq0

/-- C5: for every successful `startGame` call (with the non-negative
undercover count every reachable settings object has), the number of
players assigned the Civilian role equals the player count minus the
undercover count minus one when Mr. White is enabled, that number is at
least 2, and every player holds exactly one standard role (`role` is
set for all of them). -/
theorem startGame_role_counts (room : Room) (sid : String) (rand : StartRand) (wp : WordPair)
    (started : Room)
    (huc : 0 ≤ room.settings.undercoverCount)
    (h : startGame room sid rand wp = StartResult.ok started) :
    (((started.players.filter (fun p => p.role == some Role.civilian)).length : Int)
        = (room.players.length : Int) - room.settings.undercoverCount
          - (if room.settings.includeMrWhite then 1 else 0))
  ∧ 2 ≤ (started.players.filter (fun p => p.role == some Role.civilian)).length
  ∧ started.players.all (fun p => p.role.isSome) = true := by
  unfold startGame at h
  split at h
  next => exact StartResult.noConfusion h
  next host hfind =>
    split at h
    next => exact StartResult.noConfusion h
    next hsock =>
      split at h
      next => exact StartResult.noConfusion h
      next h1 =>
        by_cases h2 : room.settings.undercoverCount +
            (if room.settings.includeMrWhite then (1 : Int) else 0) ≥
              (room.players.length : Int) - 1
        · rw [if_pos h2] at h
          exact StartResult.noConfusion h
        · rw [if_neg h2] at h
          by_cases h3 : room.settings.selectedCategories.length = 0
          · rw [if_pos h3] at h
            exact StartResult.noConfusion h
          · rw [if_neg h3] at h
            injection h with hstart
            subst hstart
            have hok : room.settings.undercoverCount.toNat +
                (if room.settings.includeMrWhite then 1 else 0) ≤ room.players.length := by
              by_cases hmw : room.settings.includeMrWhite <;>
                simp [hmw] at h2 ⊢ <;> omega
            have hcount := startGamePipeline_countP room rand wp hok
            have hall : (startGamePipeline room rand wp).players.all
                (fun p => p.role.isSome) = true := by
              rw [List.all_eq_true]
              exact fun p hp => startGamePipeline_roles_isSome room rand wp p hp
            refine ⟨?_, ?_, hall⟩
            · rw [← List.countP_eq_length_filter, hcount]
              by_cases hmw : room.settings.includeMrWhite <;>
                simp [hmw] at h2 ⊢ <;> omega
            · rw [← List.countP_eq_length_filter, hcount]
              by_cases hmw : room.settings.includeMrWhite <;>
                simp [hmw] at h1 h2 ⊢ <;> omega

theorem startGame_role_counts_witness :
    ((((exStarted.players.filter (fun p => p.role == some Role.civilian)).length : Int)
        = (exWaiting.players.length : Int) - exWaiting.settings.undercoverCount
          - (if exWaiting.settings.includeMrWhite then 1 else 0))
  ∧ 2 ≤ (exStarted.players.filter (fun p => p.role == some Role.civilian)).length
  ∧ exStarted.players.all (fun p => p.role.isSome) = true) :=
  startGame_role_counts exWaiting "host" exRand exPair exStarted (by decide) (by decide)

end Undercover
